import Mathlib

/-!
# TickerTide (`src/main.py`) — shallow embedding and verification

This file embeds the pure core of `src/main.py` (a cryptocurrency
scraping-and-reporting script) in Lean 4 and proves the specification
claims about it.

Modelling conventions:

* Display strings are Lean `String`s; all character-level operations
  (`str.replace` with one-character patterns, `str.strip`,
  `str.split("\n")[0]`) are defined structurally over `String.toList` so
  that they compute by kernel reduction.
* Python `float(...)` is modelled by `pyFloat : String → Option ℚ`,
  which parses the decimal-literal grammar (optional sign, integer and/or
  fractional digits, optional exponent) and denotes the exact rational
  value of the literal.  IEEE-754 rounding, `inf`/`nan` spellings and
  digit-group underscores are outside the model; no claim exercises them.
* The rendered DOM table is a `List` of rows, each row a `List` of cells;
  a cell is `Option String` — `none` models a cell whose text retrieval
  raises (the failure caught by the `try/except` in the row loop).
* The CSV file is `Option (List String)` (absent, or a list of lines);
  the spreadsheet is `Option Workbook`, a grid of styled cells together
  with the per-column widths.
-/

/-- One observation of one coin, as built at `src/main.py:63-69`:
all five fields are raw display strings. -/
structure CoinRecord where
  timestamp : String
  name : String
  price : String
  change_24h : String
  market_cap : String
deriving DecidableEq, Repr

/-! ## Character-level string helpers (Python semantics) -/

/-- Python `s.replace(c, "")` for a one-character pattern `c`:
removes every occurrence of the character. -/
def removeChar (c : Char) (s : String) : String :=
  (s.toList.filter (fun a => a ≠ c)).asString

/-- The whitespace characters removed by Python `str.strip()`
(ASCII subset; the claims use no other whitespace). -/
def isPySpace (c : Char) : Bool :=
  c = ' ' ∨ c = '\t' ∨ c = '\n' ∨ c = '\r' ∨ c = '\x0b' ∨ c = '\x0c'

/-- Python `str.strip()`: drop leading and trailing whitespace. -/
def pyStrip (s : String) : String :=
  (((s.toList.dropWhile isPySpace).reverse.dropWhile isPySpace).reverse).asString

/-- Python `s.split("\n")[0]`: the text before the first newline
(`split` always returns a nonempty list, so indexing with 0 is total). -/
def firstLine (s : String) : String :=
  (s.toList.takeWhile (fun c => c ≠ '\n')).asString

/-! ## Model of Python `float()` on decimal literals -/

/-- Numeric value of a digit character. -/
def digitVal (c : Char) : Nat := c.toNat - 48

/-- Value of a digit string read in base 10. -/
def digitsToNat (ds : List Char) : Nat :=
  ds.foldl (fun a c => a * 10 + digitVal c) 0

/-- Parse the exponent that follows `e`/`E`: optional sign then at least
one digit, consuming the whole rest of the input. -/
def parseExpPart (cs : List Char) : Option Int :=
  let (neg, cs1) : Bool × List Char :=
    match cs with
    | '+' :: t => (false, t)
    | '-' :: t => (true, t)
    | t => (false, t)
  let ds := cs1.takeWhile Char.isDigit
  let rest := cs1.dropWhile Char.isDigit
  if ds.isEmpty ∨ ¬ rest.isEmpty then none
  else some (if neg then -(digitsToNat ds : Int) else (digitsToNat ds : Int))

/-- Syntactic parts of a decimal literal: sign, mantissa digits read as a
natural number, number of fractional digits, exponent. -/
structure FloatParts where
  neg : Bool
  mant : Nat
  fracLen : Nat
  exp : Int
deriving DecidableEq, Repr

/-- Parse a full decimal literal (no surrounding whitespace): sign,
digits with an optional decimal point (at least one digit in the
mantissa), optional exponent. Returns `none` exactly when Python
`float()` would raise `ValueError` on such a string. -/
def pyFloatParts (s : String) : Option FloatParts :=
  let cs := s.toList
  let (neg, cs1) : Bool × List Char :=
    match cs with
    | '+' :: t => (false, t)
    | '-' :: t => (true, t)
    | t => (false, t)
  let ids := cs1.takeWhile Char.isDigit
  let rest1 := cs1.dropWhile Char.isDigit
  let (fds, rest2) : List Char × List Char :=
    match rest1 with
    | '.' :: t => (t.takeWhile Char.isDigit, t.dropWhile Char.isDigit)
    | t => ([], t)
  let pointSeen : Bool := match rest1 with | '.' :: _ => true | _ => false
  if ids.isEmpty ∧ (fds.isEmpty ∨ ¬ pointSeen) then none
  else
    match rest2 with
    | [] => some ⟨neg, digitsToNat (ids ++ fds), fds.length, 0⟩
    | 'e' :: t =>
        (parseExpPart t).map fun e => ⟨neg, digitsToNat (ids ++ fds), fds.length, e⟩
    | 'E' :: t =>
        (parseExpPart t).map fun e => ⟨neg, digitsToNat (ids ++ fds), fds.length, e⟩
    | _ => none

/-- Exact rational value denoted by the parsed literal. -/
def ratOfParts (p : FloatParts) : ℚ :=
  let base : ℚ := (p.mant : ℚ) / (10 : ℚ) ^ p.fracLen
  let signed : ℚ := if p.neg then -base else base
  if 0 ≤ p.exp then signed * (10 : ℚ) ^ p.exp.toNat
  else signed / (10 : ℚ) ^ (-p.exp).toNat

/-- Python `float(s)` on decimal literals, as an exact rational. -/
def pyFloat (s : String) : Option ℚ :=
  (pyFloatParts s).map ratOfParts

/-! ## Field parsers (`src/main.py:204-219`) -/

/-- `parse_price` (`src/main.py:204-210`): strip `$` and `,`, strip
whitespace, try `float`; `None` on failure. -/
def parse_price (price_str : String) : Option ℚ :=
  let clean := pyStrip (removeChar ',' (removeChar '$' price_str))
  pyFloat clean

/-- `parse_percent` (`src/main.py:213-219`): strip `%` and `,`, strip
whitespace, try `float`; `None` on failure. -/
def parse_percent (percent_str : String) : Option ℚ :=
  let clean := pyStrip (removeChar ',' (removeChar '%' percent_str))
  pyFloat clean

/-! ## Filters (`src/main.py:222-239`) -/

/-- The test `p is not None and p >= min_price` of `src/main.py:227`. -/
def pricePasses (min_price : ℚ) (coin : CoinRecord) : Bool :=
  match parse_price coin.price with
  | some p => decide (min_price ≤ p)
  | none => false

/-- The test `ch is not None and ch >= min_change` of `src/main.py:237`. -/
def changePasses (min_change : ℚ) (coin : CoinRecord) : Bool :=
  match parse_percent coin.change_24h with
  | some ch => decide (min_change ≤ ch)
  | none => false

/-- `filter_by_min_price` (`src/main.py:222-229`): the accumulation loop,
written as structural recursion over the input list. -/
def filter_by_min_price : List CoinRecord → ℚ → List CoinRecord
  | [], _ => []
  | coin :: coins, min_price =>
      if pricePasses min_price coin then
        coin :: filter_by_min_price coins min_price
      else
        filter_by_min_price coins min_price

/-- `filter_top_gainers_24h` (`src/main.py:232-239`). -/
def filter_top_gainers_24h : List CoinRecord → ℚ → List CoinRecord
  | [], _ => []
  | coin :: coins, min_change =>
      if changePasses min_change coin then
        coin :: filter_top_gainers_24h coins min_change
      else
        filter_top_gainers_24h coins min_change

/-! ## Row extractor (`src/main.py:38-74`)

The rendered table is a list of row elements; each row is a list of its
`td` cells.  A cell is `Option String`: `some t` is a cell whose `.text`
is `t`, `none` a cell whose text retrieval raises — the per-row failure
caught by the `try/except` at `src/main.py:57-72`. -/

/-- A rendered table cell: its `.text`, or `none` if retrieval raises. -/
abbrev TableCell := Option String

/-- A rendered table row: the list of its cells. -/
abbrev TableRow := List TableCell

/-- The body of the row loop (`src/main.py:52-72`): skip the row when it
has fewer than 8 cells; otherwise read cells 1, 2, 4, 6; any cell
failure drops the row (`except` branch); on success build the record,
taking only the first line of the name cell. -/
def extractRow (timestamp : String) (row : TableRow) : Option CoinRecord :=
  if row.length < 8 then none
  else
    match row.getD 1 none, row.getD 2 none, row.getD 4 none, row.getD 6 none with
    | some c1, some c2, some c4, some c6 =>
        some { timestamp := timestamp
               name := firstLine c1
               price := c2
               change_24h := c4
               market_cap := c6 }
    | _, _, _, _ => none

/-- `scrape_top_60_coins` (`src/main.py:38-74`), from the point where the
rendered rows are in hand: keep the first 60 row elements
(`rows = rows[:60]`), then run the extraction loop, dropping failed rows.
The shared `timestamp` (computed once at `src/main.py:50`, before the
loop) is a parameter. -/
def scrape_top_60_coins (timestamp : String) (tableRows : List TableRow) : List CoinRecord :=
  (tableRows.take 60).filterMap (extractRow timestamp)

/-- A row on which extraction succeeds: at least 8 cells, and the four
used cells' text retrievals succeed. -/
def WellFormedRow (row : TableRow) : Prop :=
  8 ≤ row.length ∧ (row.getD 1 none).isSome ∧ (row.getD 2 none).isSome ∧
    (row.getD 4 none).isSome ∧ (row.getD 6 none).isSome

instance : DecidablePred WellFormedRow := fun row => by
  unfold WellFormedRow; infer_instance

/-! ## CSV writer (`src/main.py:79-88`)

The file system is `Option (List String)`: `none` when `filename` does
not exist, `some lines` for an existing file with those lines.
`pd.DataFrame(data).to_csv(filename, mode="a", index=False,
header=not file_exists)` appends one line per record, preceded by the
header line only when the file did not exist. -/

/-- The CSV header line pandas writes for these five dict keys. -/
def csvHeader : String := "timestamp,name,price,change_24h,market_cap"

/-- Double the quote characters of a field (CSV escaping). -/
def escQuotes : List Char → List Char
  | [] => []
  | c :: cs => if c = '"' then '"' :: '"' :: escQuotes cs else c :: escQuotes cs

/-- Render one field as pandas does (QUOTE_MINIMAL): quote it only when
it contains a separator, a quote or a line break. -/
def csvField (s : String) : String :=
  if s.toList.any (fun c => c = ',' ∨ c = '"' ∨ c = '\n' ∨ c = '\r') then
    ("\"".toList ++ escQuotes s.toList ++ "\"".toList).asString
  else s

/-- Join rendered fields with commas. -/
def joinComma : List String → String
  | [] => ""
  | [s] => s
  | s :: rest => s ++ "," ++ joinComma rest

/-- The CSV line written for one record (DataFrame column order is the
dict insertion order of `src/main.py:63-69`). -/
def recordToCsvLine (r : CoinRecord) : String :=
  joinComma ([r.timestamp, r.name, r.price, r.change_24h, r.market_cap].map csvField)

/-- `save_to_csv` (`src/main.py:79-88`) as a transformation of the file
state: no file change when `data` is empty; header plus data lines on a
fresh path; pure append of data lines on an existing path. -/
def save_to_csv (data : List CoinRecord) (file : Option (List String)) :
    Option (List String) :=
  if data.isEmpty then file
  else
    match file with
    | none => some (csvHeader :: data.map recordToCsvLine)
    | some lines => some (lines ++ data.map recordToCsvLine)

/-! ## Spreadsheet writer (`src/main.py:94-198`)

A worksheet cell carries its value (always a string here: every value
written is a display string or a header caption) and the style
attributes the script sets.  The workbook is the list of rows plus the
per-column widths set at `src/main.py:188-195`. -/

/-- One worksheet cell: value and the styling the script applies. -/
structure SCell where
  value : String
  bordered : Bool := false
  centered : Bool := false
  bold : Bool := false
  filled : Bool := false
deriving DecidableEq, Repr

/-- The saved workbook: grid of cells and stored column widths. -/
structure Workbook where
  rows : List (List SCell)
  widths : List Nat
deriving DecidableEq, Repr

/-- The header captions (`src/main.py:100`). -/
def headers : List String := ["Timestamp", "Name", "Price", "24h Change", "Market Cap"]

/-- The five values appended for one record (`src/main.py:120-128`). -/
def recordCells (r : CoinRecord) : List String :=
  [r.timestamp, r.name, r.price, r.change_24h, r.market_cap]

/-- A freshly appended, unstyled cell. -/
def plainCell (v : String) : SCell := { value := v }

/-- `cell.border = thin_border; cell.alignment = center_align`
(`src/main.py:137-139` and `183-185`). -/
def styleDataCell (c : SCell) : SCell := { c with bordered := true, centered := true }

/-- The header styling of `src/main.py:158-163`: bold white font, solid
fill, centered, thin border. -/
def styleHeaderCell (c : SCell) : SCell :=
  { c with bold := true, filled := true, centered := true, bordered := true }

/-- The `ws.iter_rows(min_row=startRow, max_row=ws.max_row, min_col=1,
max_col=5)` styling loop: rows `startRow .. max_row` (1-based) are the
last `rows.length - (startRow - 1)` rows; each has its first five cells
restyled. -/
def styleRowsFrom (startRow : Nat) (rows : List (List SCell)) : List (List SCell) :=
  rows.take (startRow - 1) ++
    (rows.drop (startRow - 1)).map fun r => (r.take 5).map styleDataCell ++ r.drop 5

/-- The create branch (`src/main.py:141-185`): append the header row,
style its five cells, append one row per record, then style rows 2
through `max_row`. -/
def createSheet (data : List CoinRecord) : List (List SCell) :=
  let withHeader := [headers.map plainCell]
  let styledHeader := withHeader.map fun r => (r.take 5).map styleHeaderCell ++ r.drop 5
  let withData := styledHeader ++ data.map fun d => (recordCells d).map plainCell
  styleRowsFrom 2 withData

/-- The append branch (`src/main.py:111-139`): record
`start_row = ws.max_row + 1`, append one row per record, then style rows
`start_row` through the new `max_row`. -/
def appendSheet (existing : List (List SCell)) (data : List CoinRecord) :
    List (List SCell) :=
  let startRow := existing.length + 1
  let withData := existing ++ data.map fun d => (recordCells d).map plainCell
  styleRowsFrom startRow withData

/-- The running-maximum scan of `src/main.py:188-194`: `max_len` starts
at 0 and is raised by each cell whose displayed text is longer; a `None`
cell displays as `""`. -/
def colMaxLen (rows : List (List SCell)) (j : Nat) : Nat :=
  rows.foldl
    (fun m r =>
      let v := (r.getD j (plainCell "")).value
      if v.length > m then v.length else m)
    0

/-- The width pass (`src/main.py:187-195`): every workbook written by
this script has five columns; each gets width `max_len + 2`. -/
def computeWidths (rows : List (List SCell)) : List Nat :=
  (List.range 5).map fun j => colMaxLen rows j + 2

/-- `save_to_excel_styled` (`src/main.py:94-198`) as a transformation of
the file state: unchanged when `data` is empty; otherwise create or
append, recompute all column widths over the whole grid, and save. -/
def save_to_excel_styled (data : List CoinRecord) (file : Option Workbook) :
    Option Workbook :=
  if data.isEmpty then file
  else
    let rows :=
      match file with
      | some wb => appendSheet wb.rows data
      | none => createSheet data
    some { rows := rows, widths := computeWidths rows }

/-- The empty workbook (only used as an `Option.getD` default). -/
def emptyWb : Workbook := { rows := [], widths := [] }

/-- The workbook produced by a save, for stating theorems about the
(always-`some`) result of a nonempty save. -/
def saveXlsx (data : List CoinRecord) (file : Option Workbook) : Workbook :=
  (save_to_excel_styled data file).getD emptyWb

/-! ## Helper lemmas -/

/-- The accumulation loop of `filter_by_min_price` is `List.filter` with
the loop's test. -/
theorem filter_by_min_price_eq_filter (coins : List CoinRecord) (m : ℚ) :
    filter_by_min_price coins m = coins.filter (pricePasses m) := by
  induction coins with
  | nil => rfl
  | cons c cs ih =>
      by_cases h : pricePasses m c <;>
        simp [filter_by_min_price, List.filter_cons, h, ih]

/-- The accumulation loop of `filter_top_gainers_24h` is `List.filter`
with the loop's test. -/
theorem filter_top_gainers_eq_filter (coins : List CoinRecord) (m : ℚ) :
    filter_top_gainers_24h coins m = coins.filter (changePasses m) := by
  induction coins with
  | nil => rfl
  | cons c cs ih =>
      by_cases h : changePasses m c <;>
        simp [filter_top_gainers_24h, List.filter_cons, h, ih]

/-- The loop test succeeds exactly when the price parses and clears the
threshold. -/
theorem pricePasses_iff (m : ℚ) (c : CoinRecord) :
    pricePasses m c = true ↔ ∃ p : ℚ, parse_price c.price = some p ∧ m ≤ p := by
  unfold pricePasses
  cases h : parse_price c.price <;> simp

/-- A successfully extracted record carries the timestamp parameter. -/
theorem extractRow_timestamp (ts : String) (row : TableRow) (rec : CoinRecord)
    (h : extractRow ts row = some rec) : rec.timestamp = ts := by
  unfold extractRow at h
  split at h
  · cases h
  · split at h
    · cases h; rfl
    · cases h

/-- A well-formed row extracts successfully. -/
theorem extractRow_isSome_of_wf (ts : String) (row : TableRow)
    (h : WellFormedRow row) : (extractRow ts row).isSome := by
  obtain ⟨hl, h1, h2, h4, h6⟩ := h
  obtain ⟨c1, hc1⟩ := Option.isSome_iff_exists.mp h1
  obtain ⟨c2, hc2⟩ := Option.isSome_iff_exists.mp h2
  obtain ⟨c4, hc4⟩ := Option.isSome_iff_exists.mp h4
  obtain ⟨c6, hc6⟩ := Option.isSome_iff_exists.mp h6
  unfold extractRow
  rw [if_neg (Nat.not_lt.mpr hl), hc1, hc2, hc4, hc6]
  rfl

/-- `filterMap` over a list on which `f` always succeeds relates input
and output pointwise, in order. -/
theorem forall₂_filterMap_of_isSome {α β : Type} (f : α → Option β) (l : List α)
    (h : ∀ a ∈ l, (f a).isSome) :
    List.Forall₂ (fun a b => f a = some b) l (l.filterMap f) := by
  induction l with
  | nil => simp
  | cons a t ih =>
      obtain ⟨b, hb⟩ := Option.isSome_iff_exists.mp (h a (List.mem_cons_self a t))
      rw [List.filterMap_cons_some hb]
      exact List.Forall₂.cons hb (ih fun x hx => h x (List.mem_cons_of_mem a hx))

/-! ## Claims -/

/-- **C9.** `filter_by_min_price` keeps exactly the records whose parsed
price is present and at least the threshold (unparseable prices are
excluded without error), preserves input order without mutating records
(it is a sublist of the input built from the same record values), and is
idempotent at a fixed threshold. -/
theorem spec_c9_filter_by_min_price (coins : List CoinRecord) (m : ℚ) :
    filter_by_min_price coins m = coins.filter (pricePasses m) ∧
    (∀ c : CoinRecord, c ∈ filter_by_min_price coins m ↔
        c ∈ coins ∧ ∃ p : ℚ, parse_price c.price = some p ∧ m ≤ p) ∧
    List.Sublist (filter_by_min_price coins m) coins ∧
    filter_by_min_price (filter_by_min_price coins m) m = filter_by_min_price coins m := by
  refine ⟨filter_by_min_price_eq_filter coins m, ?_, ?_, ?_⟩
  · intro c
    rw [filter_by_min_price_eq_filter, List.mem_filter, pricePasses_iff]
  · rw [filter_by_min_price_eq_filter]
    exact List.filter_sublist coins
  · rw [filter_by_min_price_eq_filter coins m, filter_by_min_price_eq_filter,
      List.filter_filter]
    simp

/-- **C10.** `filter_by_min_price` and `filter_top_gainers_24h` commute:
filtering by price then by 24h change gives the same sequence as the
opposite order, for every record list and every pair of thresholds. -/
theorem spec_c10_filters_commute (coins : List CoinRecord) (mp mc : ℚ) :
    filter_by_min_price (filter_top_gainers_24h coins mc) mp =
      filter_top_gainers_24h (filter_by_min_price coins mp) mc := by
  rw [filter_by_min_price_eq_filter, filter_top_gainers_eq_filter,
    filter_top_gainers_eq_filter, filter_by_min_price_eq_filter,
    List.filter_filter, List.filter_filter]
  exact List.filter_congr fun c _ => Bool.and_comm _ _

/-- **C6.** Every record returned by one run of `scrape_top_60_coins`
carries the run's single timestamp — the value computed once, before the
row loop starts (modelled by the `timestamp` parameter, bound once at
`src/main.py:50`). -/
theorem spec_c6_shared_timestamp (ts : String) (tableRows : List TableRow) :
    ∀ rec ∈ scrape_top_60_coins ts tableRows, rec.timestamp = ts := by
  intro rec hrec
  unfold scrape_top_60_coins at hrec
  rw [List.mem_filterMap] at hrec
  obtain ⟨row, _, hx⟩ := hrec
  exact extractRow_timestamp ts row rec hx

/-- Witness for C6 at a concrete one-row table. -/
theorem spec_c6_shared_timestamp_witness :
    (⟨"t", "BTC", "$1", "2%", "m"⟩ : CoinRecord) ∈
      scrape_top_60_coins "t"
        [[some "0", some "BTC\nx", some "$1", some "", some "2%", some "", some "m", some ""]] ∧
    (⟨"t", "BTC", "$1", "2%", "m"⟩ : CoinRecord).timestamp = "t" :=
  ⟨by decide,
   spec_c6_shared_timestamp "t"
     [[some "0", some "BTC\nx", some "$1", some "", some "2%", some "", some "m", some ""]]
     ⟨"t", "BTC", "$1", "2%", "m"⟩ (by decide)⟩

/-- **C5.** A row with fewer than 8 cells extracts to nothing, and a row
on which extraction fails for any reason is dropped while extraction
continues with the remaining rows: the batch result is the results of
the surrounding rows, and (extraction being a total function) no
malformed row aborts the batch. -/
theorem spec_c5_malformed_row_dropped (ts : String) (pre post : List TableRow)
    (bad : TableRow) (hbad : bad.length < 8 ∨ extractRow ts bad = none) :
    extractRow ts bad = none ∧
    (pre ++ bad :: post).filterMap (extractRow ts) =
      pre.filterMap (extractRow ts) ++ post.filterMap (extractRow ts) ∧
    ((pre ++ bad :: post).length ≤ 60 →
      scrape_top_60_coins ts (pre ++ bad :: post) =
        scrape_top_60_coins ts pre ++ scrape_top_60_coins ts post) := by
  have hnone : extractRow ts bad = none := by
    rcases hbad with h | h
    · unfold extractRow
      simp [h]
    · exact h
  refine ⟨hnone, ?_, ?_⟩
  · simp [List.filterMap_append, List.filterMap_cons_none hnone]
  · intro hlen
    have hl : (pre ++ bad :: post).length = pre.length + (post.length + 1) := by
      simp [List.length_append]
    unfold scrape_top_60_coins
    rw [List.take_of_length_le hlen, List.take_of_length_le (by omega),
      List.take_of_length_le (by omega)]
    simp [List.filterMap_append, List.filterMap_cons_none hnone]

/-- Witness for C5: a cell-less row between two saturated rows. -/
theorem spec_c5_malformed_row_dropped_witness :
    (([] : TableRow).length < 8 ∨ extractRow "t" [] = none) ∧
    (extractRow "t" [] = none ∧
      ([[some "0", some "A\nx", some "$1", some "", some "1%", some "", some "m", some ""],
        ([] : TableRow),
        [some "0", some "B\nx", some "$2", some "", some "2%", some "", some "n", some ""]]).filterMap
          (extractRow "t") =
        ([[some "0", some "A\nx", some "$1", some "", some "1%", some "", some "m", some ""]] :
            List TableRow).filterMap (extractRow "t") ++
          ([[some "0", some "B\nx", some "$2", some "", some "2%", some "", some "n", some ""]] :
            List TableRow).filterMap (extractRow "t") ∧
      (([[some "0", some "A\nx", some "$1", some "", some "1%", some "", some "m", some ""],
          ([] : TableRow),
          [some "0", some "B\nx", some "$2", some "", some "2%", some "", some "n", some ""]] :
          List TableRow).length ≤ 60 →
        scrape_top_60_coins "t"
            [[some "0", some "A\nx", some "$1", some "", some "1%", some "", some "m", some ""],
              ([] : TableRow),
              [some "0", some "B\nx", some "$2", some "", some "2%", some "", some "n", some ""]] =
          scrape_top_60_coins "t"
              [[some "0", some "A\nx", some "$1", some "", some "1%", some "", some "m", some ""]] ++
            scrape_top_60_coins "t"
              [[some "0", some "B\nx", some "$2", some "", some "2%", some "", some "n", some ""]])) :=
  ⟨Or.inl (by decide),
   spec_c5_malformed_row_dropped "t"
     [[some "0", some "A\nx", some "$1", some "", some "1%", some "", some "m", some ""]]
     [[some "0", some "B\nx", some "$2", some "", some "2%", some "", some "n", some ""]]
     [] (Or.inl (by decide))⟩

/-- **C1.** On a table whose rows are all well formed and number at
least 60, `scrape_top_60_coins` returns exactly 60 records, one per row
of the first 60 rows in their original order (`Forall₂` pairs the taken
rows with the results positionally); on any table the result never
exceeds 60 records nor the table's row count. -/
theorem spec_c1_sixty_records (ts : String) (tableRows : List TableRow) :
    ((∀ r ∈ tableRows, WellFormedRow r) → 60 ≤ tableRows.length →
        (scrape_top_60_coins ts tableRows).length = 60 ∧
        List.Forall₂ (fun row rec => extractRow ts row = some rec)
          (tableRows.take 60) (scrape_top_60_coins ts tableRows)) ∧
    (scrape_top_60_coins ts tableRows).length ≤ 60 ∧
    (scrape_top_60_coins ts tableRows).length ≤ tableRows.length := by
  refine ⟨?_, ?_, ?_⟩
  · intro hwf hlen
    have hsome : ∀ r ∈ tableRows.take 60, (extractRow ts r).isSome := fun r hr =>
      extractRow_isSome_of_wf ts r (hwf r (List.mem_of_mem_take hr))
    have hf := forall₂_filterMap_of_isSome (extractRow ts) (tableRows.take 60) hsome
    refine ⟨?_, hf⟩
    have hleq := List.Forall₂.length_eq hf
    unfold scrape_top_60_coins
    rw [← hleq, List.length_take]
    omega
  · unfold scrape_top_60_coins
    calc ((tableRows.take 60).filterMap (extractRow ts)).length
        ≤ (tableRows.take 60).length := List.length_filterMap_le _ _
      _ ≤ 60 := List.length_take_le 60 tableRows
  · unfold scrape_top_60_coins
    calc ((tableRows.take 60).filterMap (extractRow ts)).length
        ≤ (tableRows.take 60).length := List.length_filterMap_le _ _
      _ ≤ tableRows.length := List.length_take_le' 60 tableRows

/-- Witness for C1 at a table of 60 identical well-formed rows. -/
theorem spec_c1_sixty_records_witness :
    (∀ r ∈ List.replicate 60
        ([some "0", some "A\nx", some "$1", some "", some "1%", some "", some "m", some ""] :
          TableRow), WellFormedRow r) ∧
    60 ≤ (List.replicate 60
        ([some "0", some "A\nx", some "$1", some "", some "1%", some "", some "m", some ""] :
          TableRow)).length ∧
    (scrape_top_60_coins "t" (List.replicate 60
        ([some "0", some "A\nx", some "$1", some "", some "1%", some "", some "m", some ""] :
          TableRow))).length = 60 ∧
    List.Forall₂ (fun row rec => extractRow "t" row = some rec)
      ((List.replicate 60
          ([some "0", some "A\nx", some "$1", some "", some "1%", some "", some "m", some ""] :
            TableRow)).take 60)
      (scrape_top_60_coins "t" (List.replicate 60
          ([some "0", some "A\nx", some "$1", some "", some "1%", some "", some "m", some ""] :
            TableRow))) :=
  ⟨by decide, by decide,
   (spec_c1_sixty_records "t" _).1 (by decide) (by decide)⟩

/-- Counting a character through `dropWhile` with a test the character
fails: only characters passing the test are dropped. -/
theorem count_dropWhile_of_neg {p : Char → Bool} {a : Char} (h : p a = false) :
    ∀ l : List Char, (l.dropWhile p).count a = l.count a := by
  intro l
  induction l with
  | nil => rfl
  | cons x t ih =>
      by_cases hx : p x
      · have hxa : a ≠ x := fun he => by rw [he, hx] at h; cases h
        rw [List.dropWhile_cons_of_pos hx, ih, List.count_cons]
        simp [Ne.symm hxa]
      · rw [List.dropWhile_cons_of_neg hx]

/-- `pyStrip` removes only whitespace, so it preserves the count of any
non-whitespace character. -/
theorem count_pyStrip_of_not_space {a : Char} (h : isPySpace a = false) (s : String) :
    (pyStrip s).toList.count a = s.toList.count a := by
  unfold pyStrip
  show ((((s.toList.dropWhile isPySpace).reverse.dropWhile isPySpace).reverse)).count a = _
  rw [List.count_reverse, count_dropWhile_of_neg h, List.count_reverse,
    count_dropWhile_of_neg h]

/-- `removeChar c` preserves the count of any character other than `c`. -/
theorem count_removeChar_of_ne {a c : Char} (h : a ≠ c) (s : String) :
    (removeChar c s).toList.count a = s.toList.count a := by
  unfold removeChar
  show (s.toList.filter (fun x => x ≠ c)).count a = _
  rw [List.count_filter (by simpa using h)]

/-- **C7.** `parse_price` strips the currency symbol and group
separators, trims whitespace, and attempts numeric conversion, returning
`none` — not an error — when conversion fails; concretely
`parse_price "$42,000.12" = 42000.12` and `parse_price "N/A"` is absent. -/
theorem spec_c7_parse_price :
    parse_price "$42,000.12" = some (42000.12 : ℚ) ∧
    parse_price "N/A" = none ∧
    ∀ s : String, parse_price s = pyFloat (pyStrip (removeChar ',' (removeChar '$' s))) := by
  refine ⟨?_, by decide, fun s => rfl⟩
  show pyFloat (pyStrip (removeChar ',' (removeChar '$' "$42,000.12"))) = _
  have h1 : pyStrip (removeChar ',' (removeChar '$' "$42,000.12")) = "42000.12" := by decide
  have h2 : pyFloatParts "42000.12" = some ⟨false, 4200012, 2, 0⟩ := by decide
  rw [h1]
  unfold pyFloat
  rw [h2]
  show some (ratOfParts ⟨false, 4200012, 2, 0⟩) = some (42000.12 : ℚ)
  rw [Option.some_inj]
  norm_num [ratOfParts]

/-- **C8.** `parse_percent` strips the percent symbol and group
separators, trims, attempts numeric conversion, returns `none` on
failure, and the stripping preserves minus signs (the count of `-`
characters is unchanged by the cleaning); concretely
`parse_percent "-2.45%" = -2.45` and `parse_percent ""` is absent. -/
theorem spec_c8_parse_percent :
    parse_percent "-2.45%" = some (-2.45 : ℚ) ∧
    parse_percent "" = none ∧
    (∀ s : String, parse_percent s = pyFloat (pyStrip (removeChar ',' (removeChar '%' s)))) ∧
    ∀ s : String,
      (pyStrip (removeChar ',' (removeChar '%' s))).toList.count '-' = s.toList.count '-' := by
  refine ⟨?_, by decide, fun s => rfl, fun s => ?_⟩
  · show pyFloat (pyStrip (removeChar ',' (removeChar '%' "-2.45%"))) = _
    have h1 : pyStrip (removeChar ',' (removeChar '%' "-2.45%")) = "-2.45" := by decide
    have h2 : pyFloatParts "-2.45" = some ⟨true, 245, 2, 0⟩ := by decide
    rw [h1]
    unfold pyFloat
    rw [h2]
    show some (ratOfParts ⟨true, 245, 2, 0⟩) = some (-2.45 : ℚ)
    rw [Option.some_inj]
    norm_num [ratOfParts]
  · rw [count_pyStrip_of_not_space (by decide),
      count_removeChar_of_ne (by decide), count_removeChar_of_ne (by decide)]

/-- **C4.** `save_to_csv` on an empty batch changes nothing; on a fresh
path it writes exactly the header line followed by the records' lines;
on an existing path it appends the records' lines after the existing
lines, with no header and no existing line rewritten; hence fresh batch
`A` then batch `B` gives one header line followed by the `|A| + |B|`
data lines in `A`-then-`B` order. -/
theorem spec_c4_save_to_csv (A B : List CoinRecord) (lines : List String)
    (hA : A ≠ []) (hB : B ≠ []) :
    (∀ file : Option (List String), save_to_csv [] file = file) ∧
    save_to_csv A none = some (csvHeader :: A.map recordToCsvLine) ∧
    save_to_csv B (some lines) = some (lines ++ B.map recordToCsvLine) ∧
    save_to_csv B (save_to_csv A none) =
      some (csvHeader :: (A.map recordToCsvLine ++ B.map recordToCsvLine)) ∧
    (A.map recordToCsvLine ++ B.map recordToCsvLine).length = A.length + B.length := by
  have hA' : A.isEmpty = false := by
    cases A with
    | nil => exact absurd rfl hA
    | cons a t => rfl
  have hB' : B.isEmpty = false := by
    cases B with
    | nil => exact absurd rfl hB
    | cons b t => rfl
  refine ⟨fun file => rfl, ?_, ?_, ?_, ?_⟩
  · simp [save_to_csv, hA']
  · simp [save_to_csv, hB']
  · simp [save_to_csv, hA', hB']
  · simp

/-- Witness for C4: one-record batches onto a fresh path and onto an
existing one-line file. -/
theorem spec_c4_save_to_csv_witness :
    save_to_csv [⟨"t", "n", "p", "c", "m"⟩] none =
      some [csvHeader, "t,n,p,c,m"] ∧
    save_to_csv [⟨"u", "v", "w", "x", "y"⟩] (some ["z"]) =
      some ["z", "u,v,w,x,y"] ∧
    save_to_csv [⟨"u", "v", "w", "x", "y"⟩] (save_to_csv [⟨"t", "n", "p", "c", "m"⟩] none) =
      some [csvHeader, "t,n,p,c,m", "u,v,w,x,y"] ∧
    ([⟨"t", "n", "p", "c", "m"⟩].map recordToCsvLine ++
        [(⟨"u", "v", "w", "x", "y"⟩ : CoinRecord)].map recordToCsvLine).length = 2 := by
  have h := spec_c4_save_to_csv [⟨"t", "n", "p", "c", "m"⟩] [⟨"u", "v", "w", "x", "y"⟩]
    ["z"] (by decide) (by decide)
  obtain ⟨-, h2, h3, h4, h5⟩ := h
  refine ⟨?_, ?_, ?_, ?_⟩
  · rw [h2]; decide
  · rw [h3]; decide
  · rw [h4]; decide
  · rw [h5]; decide

/-! ## Spreadsheet writer lemmas -/

/-- One fully styled data row as the writer leaves it. -/
def styledRowOf (d : CoinRecord) : List SCell :=
  (recordCells d).map fun v => styleDataCell (plainCell v)

/-- The styled header row as the create branch leaves it. -/
def hdrRow : List SCell := headers.map fun h => styleHeaderCell (plainCell h)

/-- The append branch leaves the existing rows untouched and adds one
styled row per record. -/
theorem appendSheet_eq (existing : List (List SCell)) (data : List CoinRecord) :
    appendSheet existing data = existing ++ data.map styledRowOf := by
  simp only [appendSheet, styleRowsFrom]
  rw [Nat.add_sub_cancel, List.take_left, List.drop_left, List.map_map]
  congr 1

/-- The create branch produces the styled header row followed by one
styled row per record. -/
theorem createSheet_eq (data : List CoinRecord) :
    createSheet data = hdrRow :: data.map styledRowOf := by
  simp only [createSheet, styleRowsFrom]
  simp only [List.map_cons, List.map_nil, List.cons_append, List.nil_append,
    List.take_succ_cons, List.take_zero, List.drop_succ_cons, List.drop_zero]
  rw [List.map_map]
  congr 1

/-- A nonempty save always produces a workbook, and `saveXlsx` is it. -/
theorem save_to_excel_eq_saveXlsx (data : List CoinRecord) (file : Option Workbook)
    (hd : data ≠ []) : save_to_excel_styled data file = some (saveXlsx data file) := by
  have h : data.isEmpty = false := by
    cases data with
    | nil => exact absurd rfl hd
    | cons a t => rfl
  unfold saveXlsx save_to_excel_styled
  rw [h]
  rfl

/-- Rows of the workbook saved by the append branch. -/
theorem saveXlsx_append_rows (data : List CoinRecord) (wb : Workbook)
    (hd : data ≠ []) :
    (saveXlsx data (some wb)).rows = wb.rows ++ data.map styledRowOf := by
  have h : data.isEmpty = false := by
    cases data with
    | nil => exact absurd rfl hd
    | cons a t => rfl
  unfold saveXlsx save_to_excel_styled
  rw [h]
  simp [appendSheet_eq]

/-- Rows of the workbook saved by the create branch. -/
theorem saveXlsx_create_rows (data : List CoinRecord) (hd : data ≠ []) :
    (saveXlsx data none).rows = hdrRow :: data.map styledRowOf := by
  have h : data.isEmpty = false := by
    cases data with
    | nil => exact absurd rfl hd
    | cons a t => rfl
  unfold saveXlsx save_to_excel_styled
  rw [h]
  simp [createSheet_eq]

/-- Widths of the workbook saved by a nonempty save are recomputed from
the full saved grid. -/
theorem saveXlsx_widths (data : List CoinRecord) (file : Option Workbook)
    (hd : data ≠ []) :
    (saveXlsx data file).widths = computeWidths (saveXlsx data file).rows := by
  have h : data.isEmpty = false := by
    cases data with
    | nil => exact absurd rfl hd
    | cons a t => rfl
  unfold saveXlsx save_to_excel_styled
  rw [h]
  cases file <;> rfl

/-- A styled data row's values are exactly the record's five fields. -/
theorem styledRowOf_values (d : CoinRecord) :
    (styledRowOf d).map SCell.value = recordCells d := by
  simp [styledRowOf, recordCells, styleDataCell, plainCell]

/-- Every cell of a styled data row is bordered and centered. -/
theorem styledRowOf_styled (d : CoinRecord) :
    ∀ c ∈ styledRowOf d, c.bordered = true ∧ c.centered = true := by
  intro c hc
  simp only [styledRowOf, List.mem_map] at hc
  obtain ⟨v, -, rfl⟩ := hc
  exact ⟨rfl, rfl⟩

/-- **C2.** In the spreadsheet writer's append path every previously
existing row — content and styling — is left exactly as it was (`take`
of the old length returns the old rows unchanged), the appended rows
carry the batch's values, and border/centering styling lands only on the
newly appended rows' cells; creating with a 3-record batch then
appending a 2-record batch yields 1 header row plus 5 data rows, with
the first 3 data rows' content intact. -/
theorem spec_c2_append_frame (data A B : List CoinRecord) (wb : Workbook)
    (hd : data ≠ []) (hA : A.length = 3) (hB : B.length = 2) :
    (save_to_excel_styled data (some wb) = some (saveXlsx data (some wb)) ∧
     (saveXlsx data (some wb)).rows.take wb.rows.length = wb.rows ∧
     (saveXlsx data (some wb)).rows.length = wb.rows.length + data.length ∧
     ((saveXlsx data (some wb)).rows.drop wb.rows.length).map
         (fun row => row.map SCell.value) = data.map recordCells ∧
     ∀ row ∈ (saveXlsx data (some wb)).rows.drop wb.rows.length, ∀ c ∈ row,
       c.bordered = true ∧ c.centered = true) ∧
    ((saveXlsx B (some (saveXlsx A none))).rows.length = 6 ∧
     ((saveXlsx B (some (saveXlsx A none))).rows.getD 0 []).map SCell.value = headers ∧
     (((saveXlsx B (some (saveXlsx A none))).rows.drop 1).take 3).map
         (fun row => row.map SCell.value) = A.map recordCells) := by
  constructor
  · have hrows := saveXlsx_append_rows data wb hd
    refine ⟨save_to_excel_eq_saveXlsx data (some wb) hd, ?_, ?_, ?_, ?_⟩
    · rw [hrows, List.take_left]
    · rw [hrows]
      simp [List.length_append]
    · rw [hrows, List.drop_left, List.map_map]
      simp [Function.comp, styledRowOf_values]
    · rw [hrows, List.drop_left]
      intro row hrow c hc
      obtain ⟨d, -, rfl⟩ := List.mem_map.mp hrow
      exact styledRowOf_styled d c hc
  · have hA' : A ≠ [] := by
      intro he
      rw [he] at hA
      cases hA
    have hB' : B ≠ [] := by
      intro he
      rw [he] at hB
      cases hB
    have h1 := saveXlsx_create_rows A hA'
    have h2 := saveXlsx_append_rows B (saveXlsx A none) hB'
    refine ⟨?_, ?_, ?_⟩
    · rw [h2, h1]
      simp only [List.length_append, List.length_cons, List.length_map, hA, hB]
    · rw [h2, h1, List.cons_append, List.getD_cons_zero]
      simp [hdrRow, headers, styleHeaderCell, plainCell]
    · rw [h2, h1, List.cons_append, List.drop_succ_cons, List.drop_zero,
        List.take_left' (by simp [hA] : (A.map styledRowOf).length = 3), List.map_map]
      simp [Function.comp, styledRowOf_values]

/-- Witness for C2: one-record append onto a one-record store, and the
3-then-2 scenario, at concrete records. -/
theorem spec_c2_append_frame_witness :
    (save_to_excel_styled [⟨"t9", "n9", "p9", "c9", "m9"⟩]
        (some (saveXlsx [⟨"t0", "n0", "p0", "c0", "m0"⟩] none)) =
      some (saveXlsx [⟨"t9", "n9", "p9", "c9", "m9"⟩]
        (some (saveXlsx [⟨"t0", "n0", "p0", "c0", "m0"⟩] none))) ∧
     (saveXlsx [⟨"t9", "n9", "p9", "c9", "m9"⟩]
        (some (saveXlsx [⟨"t0", "n0", "p0", "c0", "m0"⟩] none))).rows.take
          (saveXlsx [⟨"t0", "n0", "p0", "c0", "m0"⟩] none).rows.length =
       (saveXlsx [⟨"t0", "n0", "p0", "c0", "m0"⟩] none).rows ∧
     (saveXlsx [⟨"t9", "n9", "p9", "c9", "m9"⟩]
        (some (saveXlsx [⟨"t0", "n0", "p0", "c0", "m0"⟩] none))).rows.length =
       (saveXlsx [⟨"t0", "n0", "p0", "c0", "m0"⟩] none).rows.length +
         ([(⟨"t9", "n9", "p9", "c9", "m9"⟩ : CoinRecord)]).length ∧
     ((saveXlsx [⟨"t9", "n9", "p9", "c9", "m9"⟩]
        (some (saveXlsx [⟨"t0", "n0", "p0", "c0", "m0"⟩] none))).rows.drop
          (saveXlsx [⟨"t0", "n0", "p0", "c0", "m0"⟩] none).rows.length).map
         (fun row => row.map SCell.value) =
       ([(⟨"t9", "n9", "p9", "c9", "m9"⟩ : CoinRecord)]).map recordCells ∧
     ∀ row ∈ (saveXlsx [⟨"t9", "n9", "p9", "c9", "m9"⟩]
        (some (saveXlsx [⟨"t0", "n0", "p0", "c0", "m0"⟩] none))).rows.drop
          (saveXlsx [⟨"t0", "n0", "p0", "c0", "m0"⟩] none).rows.length, ∀ c ∈ row,
       c.bordered = true ∧ c.centered = true) ∧
    ((saveXlsx [⟨"u4", "v4", "w4", "x4", "y4"⟩, ⟨"u5", "v5", "w5", "x5", "y5"⟩]
        (some (saveXlsx [⟨"u1", "v1", "w1", "x1", "y1"⟩, ⟨"u2", "v2", "w2", "x2", "y2"⟩,
          ⟨"u3", "v3", "w3", "x3", "y3"⟩] none))).rows.length = 6 ∧
     ((saveXlsx [⟨"u4", "v4", "w4", "x4", "y4"⟩, ⟨"u5", "v5", "w5", "x5", "y5"⟩]
        (some (saveXlsx [⟨"u1", "v1", "w1", "x1", "y1"⟩, ⟨"u2", "v2", "w2", "x2", "y2"⟩,
          ⟨"u3", "v3", "w3", "x3", "y3"⟩] none))).rows.getD 0 []).map SCell.value = headers ∧
     (((saveXlsx [⟨"u4", "v4", "w4", "x4", "y4"⟩, ⟨"u5", "v5", "w5", "x5", "y5"⟩]
        (some (saveXlsx [⟨"u1", "v1", "w1", "x1", "y1"⟩, ⟨"u2", "v2", "w2", "x2", "y2"⟩,
          ⟨"u3", "v3", "w3", "x3", "y3"⟩] none))).rows.drop 1).take 3).map
         (fun row => row.map SCell.value) =
       ([⟨"u1", "v1", "w1", "x1", "y1"⟩, ⟨"u2", "v2", "w2", "x2", "y2"⟩,
          (⟨"u3", "v3", "w3", "x3", "y3"⟩ : CoinRecord)]).map recordCells) :=
  ⟨(spec_c2_append_frame [⟨"t9", "n9", "p9", "c9", "m9"⟩]
      [⟨"u1", "v1", "w1", "x1", "y1"⟩, ⟨"u2", "v2", "w2", "x2", "y2"⟩,
        ⟨"u3", "v3", "w3", "x3", "y3"⟩]
      [⟨"u4", "v4", "w4", "x4", "y4"⟩, ⟨"u5", "v5", "w5", "x5", "y5"⟩]
      (saveXlsx [⟨"t0", "n0", "p0", "c0", "m0"⟩] none) (by decide) rfl rfl).1,
   (spec_c2_append_frame [⟨"t9", "n9", "p9", "c9", "m9"⟩]
      [⟨"u1", "v1", "w1", "x1", "y1"⟩, ⟨"u2", "v2", "w2", "x2", "y2"⟩,
        ⟨"u3", "v3", "w3", "x3", "y3"⟩]
      [⟨"u4", "v4", "w4", "x4", "y4"⟩, ⟨"u5", "v5", "w5", "x5", "y5"⟩]
      (saveXlsx [⟨"t0", "n0", "p0", "c0", "m0"⟩] none) (by decide) rfl rfl).2⟩

/-! ## Column-width lemmas -/

/-- Spec-side column width: 2 plus the maximum displayed-text length
over all cells of column `j` across the entire grid, header row
included, an absent cell counting as length 0. -/
def specColWidth (rows : List (List SCell)) (j : Nat) : Nat :=
  (rows.map fun r => (r.getD j (plainCell "")).value.length).foldr max 0 + 2

/-- The running-maximum loop over a column computes the `foldr max` of
the cells' text lengths. -/
theorem colScan_eq (j : Nat) (a : Nat) (rows : List (List SCell)) :
    rows.foldl
        (fun m r =>
          let v := (r.getD j (plainCell "")).value
          if v.length > m then v.length else m)
        a =
      max a ((rows.map fun r => (r.getD j (plainCell "")).value.length).foldr max 0) := by
  induction rows generalizing a with
  | nil => simp
  | cons r t ih =>
      rw [List.foldl_cons, List.map_cons, List.foldr_cons, ih]
      show max (if (r.getD j (plainCell "")).value.length > a
          then (r.getD j (plainCell "")).value.length else a) _ = _
      have hx : (if (r.getD j (plainCell "")).value.length > a
          then (r.getD j (plainCell "")).value.length else a) =
          max a (r.getD j (plainCell "")).value.length := by
        rcases Nat.lt_or_ge a (r.getD j (plainCell "")).value.length with h | h
        · rw [if_pos h, Nat.max_eq_right (Nat.le_of_lt h)]
        · rw [if_neg (Nat.not_lt.mpr h), Nat.max_eq_left h]
      rw [hx, Nat.max_assoc]

/-- `colMaxLen` is the `foldr max` of the column's text lengths. -/
theorem colMaxLen_eq (rows : List (List SCell)) (j : Nat) :
    colMaxLen rows j =
      (rows.map fun r => (r.getD j (plainCell "")).value.length).foldr max 0 := by
  unfold colMaxLen
  rw [colScan_eq]
  exact Nat.zero_max _

/-- `foldr max 0` is bounded by any common upper bound. -/
theorem foldr_max_le {l : List Nat} {n : Nat} (h : ∀ x ∈ l, x ≤ n) :
    l.foldr max 0 ≤ n := by
  induction l with
  | nil => exact Nat.zero_le n
  | cons x t ih =>
      rw [List.foldr_cons, Nat.max_le]
      exact ⟨h x (List.mem_cons_self x t), ih fun y hy => h y (List.mem_cons_of_mem x hy)⟩

/-- `foldr max 0` dominates every member. -/
theorem le_foldr_max {l : List Nat} {x : Nat} (h : x ∈ l) : x ≤ l.foldr max 0 := by
  induction l with
  | nil => cases h
  | cons y t ih =>
      rw [List.foldr_cons]
      rcases List.mem_cons.mp h with rfl | hm
      · exact Nat.le_max_left x _
      · exact Nat.le_trans (ih hm) (Nat.le_max_right y _)

/-- Column 1 (0-indexed) of a styled data row holds the record's name. -/
theorem styledRowOf_getD_one (d : CoinRecord) :
    (styledRowOf d).getD 1 (plainCell "") = styleDataCell (plainCell d.name) := rfl

/-- **C3.** After every nonempty write, create or append, the stored
width of each of the five columns is the maximum displayed-text length
over all cells of that column across the whole file (header included,
absent cells counting 0) plus 2; in particular, appending a record whose
name is at least as long as every value previously seen in the name
column (and the longest in its batch) sets that column's width to
`len(name) + 2`. -/
theorem spec_c3_column_widths :
    (∀ (data : List CoinRecord) (file : Option Workbook), data ≠ [] →
        save_to_excel_styled data file = some (saveXlsx data file) ∧
        (saveXlsx data file).widths =
          (List.range 5).map fun j => specColWidth (saveXlsx data file).rows j) ∧
    (∀ (data : List CoinRecord) (wb : Workbook) (r : CoinRecord),
        r ∈ data →
        (∀ row ∈ wb.rows, (row.getD 1 (plainCell "")).value.length ≤ r.name.length) →
        (∀ d ∈ data, d.name.length ≤ r.name.length) →
        (saveXlsx data (some wb)).widths.getD 1 0 = r.name.length + 2) := by
  constructor
  · intro data file hd
    refine ⟨save_to_excel_eq_saveXlsx data file hd, ?_⟩
    rw [saveXlsx_widths data file hd]
    unfold computeWidths
    apply List.map_congr_left
    intro j _
    rw [colMaxLen_eq]
    rfl
  · intro data wb r hr hold hdata
    have hd : data ≠ [] := List.ne_nil_of_mem hr
    have hrows := saveXlsx_append_rows data wb hd
    rw [saveXlsx_widths data (some wb) hd]
    unfold computeWidths
    have hrange : List.range 5 = [0, 1, 2, 3, 4] := rfl
    rw [hrange]
    show colMaxLen (saveXlsx data (some wb)).rows 1 + 2 = r.name.length + 2
    rw [colMaxLen_eq]
    congr 1
    apply Nat.le_antisymm
    · apply foldr_max_le
      intro x hx
      obtain ⟨row, hrow, rfl⟩ := List.mem_map.mp hx
      rw [hrows] at hrow
      rcases List.mem_append.mp hrow with hmem | hmem
      · exact hold row hmem
      · obtain ⟨d, hd', rfl⟩ := List.mem_map.mp hmem
        rw [styledRowOf_getD_one]
        exact hdata d hd'
    · apply le_foldr_max
      rw [List.mem_map]
      refine ⟨styledRowOf r, ?_, ?_⟩
      · rw [hrows]
        exact List.mem_append_right _ (List.mem_map_of_mem styledRowOf hr)
      · rw [styledRowOf_getD_one]
        rfl

/-- Witness for C3: a fresh one-record save, then an append whose
record's name is longer than anything in the store. -/
theorem spec_c3_column_widths_witness :
    (save_to_excel_styled [⟨"t", "n", "p", "c", "m"⟩] none =
        some (saveXlsx [⟨"t", "n", "p", "c", "m"⟩] none) ∧
      (saveXlsx [⟨"t", "n", "p", "c", "m"⟩] none).widths =
        (List.range 5).map fun j =>
          specColWidth (saveXlsx [⟨"t", "n", "p", "c", "m"⟩] none).rows j) ∧
    (saveXlsx [⟨"t2", "verylongname", "p2", "c2", "m2"⟩]
        (some (saveXlsx [⟨"t", "n", "p", "c", "m"⟩] none))).widths.getD 1 0 = 14 := by
  constructor
  · exact spec_c3_column_widths.1 [⟨"t", "n", "p", "c", "m"⟩] none (by decide)
  · have h := spec_c3_column_widths.2 [⟨"t2", "verylongname", "p2", "c2", "m2"⟩]
      (saveXlsx [⟨"t", "n", "p", "c", "m"⟩] none) ⟨"t2", "verylongname", "p2", "c2", "m2"⟩
      (by decide) (by decide) (by decide)
    rw [h]
    decide

